import Mathlib

/-!
# towr / xpp : cost functor, terrain constraint, motion structure

A shallow embedding of

* `src/src/cost_function_functor.cc` (`xpp::zmp::CostFunctionFunctor`),
* `src/include/xpp/constraints/terrain_constraint.h` (`xpp::opt::TerrainConstraint`),
* `src/include/xpp/zmp/motion_structure.h` (`xpp::zmp::MotionStructure`),

together with the properties stated about them.

Conventions.  A C++ `double` is an exact rational (`Scalar`), an `int` is an
`Int`, an Eigen vector is a `List Scalar`.  Objects that the functor reaches
through pointers live in a `Memory`, addressed by natural numbers; a C++
reference is the address of the object it names.  A failed `assert` ends the
call with `Except.error`, and the memory as it was at that moment is kept in
the result so that one can say what had been written before the failure.
-/

namespace xpp

/-- The C++ type `double`, with exact arithmetic. -/
abbrev Scalar := ℚ

/-- The Eigen type `VectorXd` (`InputType` and `ValueType` of the functor). -/
abbrev VectorXd := List Scalar

namespace zmp

/-! ## Collaborators of the cost functor -/

/-- Modelled from the spec: the class `OptimizationVariables` (no file of it is
among the sources).  The spec calls it "the mutable container holding the
solver's current candidate point"; the functor uses `SetVariables` and
`GetOptimizationVariableCount` of it. -/
structure OptimizationVariables where
  x_ : VectorXd

/-- Modelled from the spec: `OptimizationVariables::SetVariables(x)` "writes
`x` into the shared variable holder". -/
def OptimizationVariables.SetVariables (_self : OptimizationVariables) (x : VectorXd) :
    OptimizationVariables :=
  { x_ := x }

/-- Modelled from the spec: `OptimizationVariables::GetOptimizationVariableCount()`,
"the holder's current variable count". -/
def OptimizationVariables.GetOptimizationVariableCount (self : OptimizationVariables) : Int :=
  (self.x_.length : Int)

/-- Modelled from the spec: the class `CostContainer` (no file of it is among
the sources), which holds "the list of cost terms"; every term maps the current
candidate point to a scalar. -/
structure CostContainer where
  costs_ : List (VectorXd → Scalar)

/-- Modelled from the spec: `CostContainer::EvaluateTotalCost()`, "the cost
aggregator's total over the now-updated holder": the sum of all cost terms at
the holder's current variables. -/
def CostContainer.EvaluateTotalCost (self : CostContainer) (subject : OptimizationVariables) :
    Scalar :=
  (self.costs_.map (fun term => term subject.x_)).sum

/-- An address of an object in memory. -/
abbrev Addr := Nat

/-- The objects the functor points to: variable holders and cost containers. -/
structure Memory where
  holders : Addr → OptimizationVariables
  containers : Addr → CostContainer

/-- Overwrites the variable holder stored at address `a`. -/
def Memory.storeVariables (mem : Memory) (a : Addr) (v : OptimizationVariables) : Memory :=
  { mem with holders := fun b => if b = a then v else mem.holders b }

/-! ## `CostFunctionFunctor` -/

/-- The ways in which a call of `operator()` ends the process. -/
inductive Fatal where
  /-- The statement `assert(costs_added_)` failed. -/
  | assert_costs_added
  /-- A null pointer was dereferenced. -/
  | null_pointer
  /-- The statement `obj_value(0) = ...` addressed a coefficient that the vector lacks. -/
  | index_out_of_range
  deriving DecidableEq, Repr

/-- The data members of `CostFunctionFunctor`; `m_inputs` and `m_values` are the
dimensions kept by `Base` (written by `Base::set_inputs`, `Base::set_values`). -/
structure CostFunctionFunctor where
  m_inputs : Int
  m_values : Int
  subject_ : Option Addr
  cost_container_ : Option Addr
  costs_added_ : Bool
  deriving DecidableEq, Repr

/-- Modelled from the spec: the value that the member `costs_added_` has before
the constructor body runs.  The member is declared in
xpp/zmp/cost_function_functor.h, which is not among the sources, and the
constructor body does not assign it; the spec says that the functor "tracks a
bound/unbound state flag" and goes "from Unbound to Bound" in `AddCosts`. -/
def costs_added_initial : Bool := false

/-- The constructor `CostFunctionFunctor::CostFunctionFunctor()`
(cost_function_functor.cc, lines 13-17): both pointers become `nullptr`.  The
dimensions `base_inputs`, `base_values` are whatever the default constructor of
`Base` leaves. -/
def CostFunctionFunctor.new (base_inputs base_values : Int) : CostFunctionFunctor :=
  { m_inputs := base_inputs
    m_values := base_values
    subject_ := none
    cost_container_ := none
    costs_added_ := costs_added_initial }

/-- The method `CostFunctionFunctor::AddCosts(subject, costs)`
(cost_function_functor.cc, lines 24-34); `subject` and `costs` are the
addresses of the two referenced objects. -/
def CostFunctionFunctor.AddCosts (self : CostFunctionFunctor) (mem : Memory)
    (subject costs : Addr) : CostFunctionFunctor :=
  let s1 := { self with subject_ := some subject }
  let s2 := { s1 with cost_container_ := some costs }
  let s3 := { s2 with m_inputs := (mem.holders subject).GetOptimizationVariableCount }
  let s4 := { s3 with m_values := 1 }
  { s4 with costs_added_ := true }

/-- What a call of `operator()` leaves behind: the memory, the output argument
`obj_value`, and either the returned `int` or the reason of the abort. -/
structure Evaluation where
  mem : Memory
  obj_value : VectorXd
  status : Except Fatal Int

/-- The method `CostFunctionFunctor::operator()(x, obj_value)`
(cost_function_functor.cc, lines 36-44). -/
def CostFunctionFunctor.operator_call (self : CostFunctionFunctor) (mem : Memory)
    (x : VectorXd) (obj_value : VectorXd) : Evaluation :=
  if self.costs_added_ = false then
    { mem := mem, obj_value := obj_value, status := .error .assert_costs_added }
  else
    match self.subject_ with
    | none => { mem := mem, obj_value := obj_value, status := .error .null_pointer }
    | some s =>
      let mem1 := mem.storeVariables s ((mem.holders s).SetVariables x)
      match self.cost_container_ with
      | none => { mem := mem1, obj_value := obj_value, status := .error .null_pointer }
      | some c =>
        let total := (mem1.containers c).EvaluateTotalCost (mem1.holders s)
        if 0 < obj_value.length then
          { mem := mem1, obj_value := obj_value.set 0 total, status := .ok 1 }
        else
          { mem := mem1, obj_value := obj_value, status := .error .index_out_of_range }

/-- An operation a client performs on a functor. -/
inductive Op where
  /-- The call `AddCosts(subject, costs)`. -/
  | addCosts (subject costs : Addr)
  /-- The call `operator()(x, obj_value)`. -/
  | evaluate (x obj_value : VectorXd)

/-- A functor together with the memory it points into. -/
structure System where
  functor : CostFunctionFunctor
  mem : Memory

/-- One operation on the system.  `operator()` is a `const` method: it leaves
the functor as it is and changes the memory only. -/
def System.step (s : System) : Op → System
  | .addCosts subject costs => { s with functor := s.functor.AddCosts s.mem subject costs }
  | .evaluate x obj_value => { s with mem := (s.functor.operator_call s.mem x obj_value).mem }

/-- A sequence of operations, first to last. -/
def System.run (s : System) (ops : List Op) : System :=
  ops.foldl System.step s

/-- The pair of addresses given to the last `AddCosts` of `ops`, if there is one. -/
def lastBinding : List Op → Option (Addr × Addr)
  | [] => none
  | .addCosts subject costs :: rest =>
    match lastBinding rest with
    | some b => some b
    | none => some (subject, costs)
  | .evaluate _ _ :: rest => lastBinding rest

/-- The operations `operator()(x, obj_value)` for a list of argument pairs. -/
def evaluations (calls : List (VectorXd × VectorXd)) : List Op :=
  calls.map (fun p => Op.evaluate p.1 p.2)

/-- A sample memory: the holder at address `a` has `a` variables, all zero; every
container has two cost terms, the sum of the variables and the sum of their squares. -/
def sampleMemory : Memory :=
  { holders := fun a => { x_ := List.replicate a 0 }
    containers := fun _ =>
      { costs_ := [fun x => x.sum, fun x => (x.map (fun v => v * v)).sum] } }

end zmp

/-- A point of space (`Eigen::Vector3d`). -/
structure Vector3d where
  x : Scalar
  y : Scalar
  z : Scalar
  deriving DecidableEq, Repr

namespace opt

/-! ## Collaborators of the terrain constraint -/

/-- Modelled from the spec: the collaborator `HeightMap` (xpp/height_map.h is not
among the sources), a "pure function terrain(x,y) → elevation, with
slope/gradient queries": `height(x,y) → z`, `gradient(x,y) → (dh/dx, dh/dy)`. -/
structure HeightMap where
  GetHeight : Scalar → Scalar → Scalar
  GetGradient : Scalar → Scalar → Scalar × Scalar

/-- The type `Jacobian` of the constraint interface, a sparse matrix: the
coefficient at (row, column), zero where nothing is stored. -/
abbrev Jacobian := Nat → Nat → Scalar

/-- Modelled from the spec: the collaborator `EEMotionNodes`
(xpp/variables/phase_nodes.h is not among the sources), the spline variable set
of one end-effector, "indexed by phase/node, exposing position(node) and
∂position/∂coefficients".  Its state is the vector of spline coefficients it
holds; `position_ c k` is the position at node `k` for the coefficients `c`, and
`positionJacobian_ c k j` is the column `j` of the matrix ∂(x,y,z)/∂coefficients
at node `k`. -/
structure EEMotionNodes where
  name_ : String
  n_nodes_ : Nat
  coefficients_ : VectorXd
  position_ : VectorXd → Nat → Vector3d
  positionJacobian_ : VectorXd → Nat → Nat → Vector3d

/-- Modelled from the spec: `position(node) → (x,y,z)` at the current coefficients. -/
def EEMotionNodes.position (self : EEMotionNodes) (k : Nat) : Vector3d :=
  self.position_ self.coefficients_ k

/-- Modelled from the spec: `positionJacobian(node) → matrix of ∂(x,y,z)/∂coefficients`
at the current coefficients; the result maps a column to its three entries. -/
def EEMotionNodes.positionJacobian (self : EEMotionNodes) (k : Nat) : Nat → Vector3d :=
  self.positionJacobian_ self.coefficients_ k

/-- Modelled from the spec: the variable set after the solver has written the
coefficients `c` into it ("spline variable sets derive positions/derivatives at
each node" from the point written into them). -/
def EEMotionNodes.SetVariables (self : EEMotionNodes) (c : VectorXd) : EEMotionNodes :=
  { self with coefficients_ := c }

/-- Modelled from the spec: an entry of `VecBound` (xpp/nlp_bound.h is not among
the sources), a pair (lower, upper). -/
structure NLPBound where
  lower_ : Scalar
  upper_ : Scalar
  deriving DecidableEq, Repr

/-! ## `TerrainConstraint` -/

/-- The data members of `TerrainConstraint` (terrain_constraint.h, lines 38-42);
the two shared pointers are replaced by the objects they point to, and
`max_z_distance_above_terrain_` has the default member initialiser of line 42. -/
structure TerrainConstraint where
  ee_motion_ : EEMotionNodes
  terrain_ : HeightMap
  max_z_distance_above_terrain_ : Scalar := 1e20

/-- Modelled from the spec: the body of `TerrainConstraint::GetValues()` (only its
declaration, terrain_constraint.h line 33, is among the sources).  "For each node
k of the bound end-effector's spline, compute v_k = z_k − terrain_height(x_k, y_k)
... Returns the ordered vector of v_k, one per node, in node order." -/
def TerrainConstraint.GetValues (self : TerrainConstraint) : VectorXd :=
  (List.range self.ee_motion_.n_nodes_).map (fun k =>
    let p := self.ee_motion_.position k
    p.z - self.terrain_.GetHeight p.x p.y)

/-- Modelled from the spec: the body of `TerrainConstraint::GetBounds()` (only its
declaration, terrain_constraint.h line 34, is among the sources).  "Returns, per
node, the interval [0, max_z_distance_above_terrain]." -/
def TerrainConstraint.GetBounds (self : TerrainConstraint) : List NLPBound :=
  (List.range self.ee_motion_.n_nodes_).map (fun _ =>
    { lower_ := 0, upper_ := self.max_z_distance_above_terrain_ })

/-- Modelled from the spec: the row that `FillJacobianWithRespectTo` writes for
node `k`, ∂v_k/∂c = ∂z_k/∂c − (∂h/∂x · ∂x_k/∂c + ∂h/∂y · ∂y_k/∂c), with the terrain
gradient taken at (x_k, y_k). -/
def TerrainConstraint.jacobianRow (self : TerrainConstraint) (k : Nat) : Nat → Scalar :=
  fun j =>
    let p := self.ee_motion_.position k
    let dp := self.ee_motion_.positionJacobian k j
    let dh := self.terrain_.GetGradient p.x p.y
    dp.z - (dh.1 * dp.x + dh.2 * dp.y)

/-- Overwrites one row of a sparse matrix. -/
def setRow (jac : Jacobian) (row : Nat) (coeffs : Nat → Scalar) : Jacobian :=
  fun r c => if r = row then coeffs c else jac r c

/-- Modelled from the spec: the body of
`TerrainConstraint::FillJacobianWithRespectTo(var_set, jac)` (only its declaration,
terrain_constraint.h line 35, is among the sources).  "No-op (leaves J unchanged)
unless `var_set_id` names this constraint's bound end-effector spline ...  When it
matches, for each node k fill the row for v_k". -/
def TerrainConstraint.FillJacobianWithRespectTo (self : TerrainConstraint) (var_set : String)
    (jac : Jacobian) : Jacobian :=
  if var_set = self.ee_motion_.name_ then
    (List.range self.ee_motion_.n_nodes_).foldl
      (fun acc k => setRow acc k (self.jacobianRow k)) jac
  else
    jac

/-- The constraint seen after the solver has written the coefficients `c` into the
bound spline. -/
def TerrainConstraint.withCoefficients (self : TerrainConstraint) (c : VectorXd) :
    TerrainConstraint :=
  { self with ee_motion_ := self.ee_motion_.SetVariables c }

/-- A sample terrain: the plane h(x, y) = 2x + 3y + 1, with its gradient (2, 3). -/
def sampleTerrain : HeightMap :=
  { GetHeight := fun x y => 2 * x + 3 * y + 1
    GetGradient := fun _ _ => (2, 3) }

/-- A sample spline with two nodes over six coefficients: node `k` sits at the
point whose coordinates are the coefficients 3k, 3k+1, 3k+2. -/
def sampleSpline (c : VectorXd) : EEMotionNodes :=
  { name_ := "ee_motion_0"
    n_nodes_ := 2
    coefficients_ := c
    position_ := fun c k =>
      { x := c.getD (3 * k) 0, y := c.getD (3 * k + 1) 0, z := c.getD (3 * k + 2) 0 }
    positionJacobian_ := fun _ k j =>
      { x := if j = 3 * k then 1 else 0
        y := if j = 3 * k + 1 then 1 else 0
        z := if j = 3 * k + 2 then 1 else 0 } }

/-- A sample constraint: the sample spline over the sample terrain. -/
def sampleConstraint (c : VectorXd) : TerrainConstraint :=
  { ee_motion_ := sampleSpline c, terrain_ := sampleTerrain }

end opt

namespace hyq

/-- Modelled from the spec: the enumeration `xpp::hyq::LegID`
(xpp/hyq/leg_data_map.h is not among the sources), an "element of a small finite
enumeration identifying one of the robot's legs". -/
inductive LegID where
  | LF
  | RF
  | LH
  | RH
  deriving DecidableEq, Repr

/-- Modelled from the spec: the class `xpp::hyq::Foothold` (only forward-declared
in motion_structure.h), "{leg: LegID, position: 3D point}". -/
structure Foothold where
  leg : LegID
  p : Vector3d
  deriving DecidableEq, Repr

end hyq

namespace zmp

open hyq

/-! ## `MotionStructure` -/

/-- The struct `MotionStructure::MotionInfo::Contact` (motion_structure.h, lines 36-40). -/
structure Contact where
  id : Int
  leg : LegID
  deriving DecidableEq, Repr

/-- The struct `MotionStructure::MotionInfo` (motion_structure.h, lines 34-45). -/
structure MotionInfo where
  time_ : Scalar
  contacts : List Contact
  deriving DecidableEq, Repr

/-- Modelled from the spec: the class `PhaseInfo` (only forward-declared in
motion_structure.h), "{duration: positive real, set of active Contacts, phase
index}". -/
structure PhaseInfo where
  id_ : Nat
  duration_ : Scalar
  contacts_ : List Contact
  deriving DecidableEq, Repr

/-- The data members of `MotionStructure` (motion_structure.h, lines 77-88). -/
structure MotionStructure where
  start_stance_ : List Foothold
  steps_ : List LegID
  phases_ : List PhaseInfo
  dt_ : Scalar
  cache_needs_updating_ : Bool
  cached_motion_vector_ : List MotionInfo

/-- Modelled from the spec: the contacts of the start stance ("one per leg in
contact at t=0"), used by `BuildPhases`.  The spec leaves open which integer
names a contact instance; here a contact of the start stance has the id -1 and
the contact made by the step number `i` has the id `i`. -/
def startContacts (start_stance : List Foothold) : List Contact :=
  start_stance.map (fun f => { id := -1, leg := f.leg })

/-- Modelled from the spec: the contacts once the leg `leg` has finished its step
number `i`, used by `BuildPhases`: the leg is back on the ground with a new
contact instance; a phase's contacts reference "only legs present in
`start_stance`". -/
def touchdown (current : List Contact) (i : Nat) (leg : LegID) : List Contact :=
  current.map (fun c => if c.leg = leg then { id := (i : Int), leg := leg } else c)

/-- Modelled from the spec: the contacts after all the steps `legs`, numbered from
`i` on, used by `BuildPhases` for the final stance. -/
def contactsAfterSteps (current : List Contact) (i : Nat) : List LegID → List Contact
  | [] => current
  | leg :: rest => contactsAfterSteps (touchdown current i leg) (i + 1) rest

/-- Modelled from the spec: "For each leg in `step_legs`, emit a swing phase of
duration `t_swing` in which that leg is not in contact while all other legs
remain in contact; phases for successive steps are separated as dictated by the
plan's stance spacing (`t_stance`)": between two successive swing phases stands
an all-legs phase of duration `t_stance`.  The result lists (duration, contacts). -/
def swingPhases (t_swing t_stance : Scalar) (current : List Contact) (i : Nat) :
    List LegID → List (Scalar × List Contact)
  | [] => []
  | [leg] => [(t_swing, current.filter (fun c => c.leg ≠ leg))]
  | leg :: next :: rest =>
    (t_swing, current.filter (fun c => c.leg ≠ leg)) ::
      (t_stance, touchdown current i leg) ::
        swingPhases t_swing t_stance (touchdown current i leg) (i + 1) (next :: rest)

/-- Modelled from the spec: gives every phase its "phase index" in the timeline,
counting from `i`; used by `BuildPhases`. -/
def numberPhases (i : Nat) : List (Scalar × List Contact) → List PhaseInfo
  | [] => []
  | (duration, contacts) :: rest =>
    { id_ := i, duration_ := duration, contacts_ := contacts } :: numberPhases (i + 1) rest

/-- Modelled from the spec: the body of `MotionStructure::BuildPhases(steps,
t_swing, t_stance, insert_init, insert_final)` (only its declaration,
motion_structure.h lines 82-83, is among the sources); see `swingPhases` for the
steps.  "If `insert_initial_stance` is set, prepend an all-legs-stance phase; if
`insert_final_stance` is set, append one."  The method is `const` and reads the
members `start_stance_` and `steps_`, of which it takes the first `steps` legs. -/
def MotionStructure.BuildPhases (self : MotionStructure) (steps : Int)
    (t_swing t_stance : Scalar) (insert_init insert_final : Bool) : List PhaseInfo :=
  let legs := self.steps_.take steps.toNat
  let start := startContacts self.start_stance_
  let initial := if insert_init then [(t_stance, start)] else []
  let swings := swingPhases t_swing t_stance start 0 legs
  let final := if insert_final then [(t_stance, contactsAfterSteps start 0 legs)] else []
  numberPhases 0 (initial ++ swings ++ final)

/-- Modelled from the spec: the body of `MotionStructure::Init` (only its
declaration, motion_structure.h lines 56-58, is among the sources):
"deterministically builds the phase list ... Marks the sample cache dirty." -/
def MotionStructure.Init (self : MotionStructure) (start_stance : List Foothold)
    (step_legs : List LegID) (t_swing t_stance : Scalar)
    (insert_initial_stance insert_final_stance : Bool) : MotionStructure :=
  let s1 := { self with start_stance_ := start_stance }
  let s2 := { s1 with steps_ := step_legs }
  let s3 := { s2 with phases_ := s2.BuildPhases (step_legs.length : Int) t_swing t_stance
                                   insert_initial_stance insert_final_stance }
  { s3 with cache_needs_updating_ := true }

/-- Modelled from the spec: the body of `MotionStructure::SetDisretization(dt)`
(only its declaration, motion_structure.h line 60, is among the sources): "sets
the sampling interval used to produce discrete nodes; marks the cache dirty;
does not rebuild phases." -/
def MotionStructure.SetDisretization (self : MotionStructure) (dt : Scalar) :
    MotionStructure :=
  { self with dt_ := dt, cache_needs_updating_ := true }

/-- Modelled from the spec: the number of samples of a phase in
`CalcContactInfoVec`, one "every `dt` seconds (and at minimum once per phase)". -/
def samplesInPhase (dt duration : Scalar) : Nat :=
  max 1 (Int.toNat ⌊duration / dt⌋)

/-- Modelled from the spec: the loop of `CalcContactInfoVec` over the phases, the
first of which starts at the absolute time `t`. -/
def samplesFrom (dt : Scalar) : Scalar → List PhaseInfo → List MotionInfo
  | _, [] => []
  | t, phase :: rest =>
    (List.range (samplesInPhase dt phase.duration_)).map
        (fun k => { time_ := t + (k : Scalar) * dt, contacts := phase.contacts_ }) ++
      samplesFrom dt (t + phase.duration_) rest

/-- Modelled from the spec: the body of `MotionStructure::CalcContactInfoVec()`
(only its declaration, motion_structure.h line 86, is among the sources): "walk
the phase list in order, emit a sample every `dt` seconds (and at minimum once
per phase) recording the phase's active-contact set and absolute time". -/
def MotionStructure.CalcContactInfoVec (self : MotionStructure) : List MotionInfo :=
  samplesFrom self.dt_ 0 self.phases_

/-- Modelled from the spec: the body of `MotionStructure::GetContactInfoVec()`
(only its declaration, motion_structure.h line 70, is among the sources):
"returns the cached MotionInfoVec, rebuilding first if dirty."  The method is
`const` and writes the two `mutable` members; the result is the returned vector
and the object after the call. -/
def MotionStructure.GetContactInfoVec (self : MotionStructure) :
    List MotionInfo × MotionStructure :=
  if self.cache_needs_updating_ then
    let fresh := self.CalcContactInfoVec
    (fresh, { self with cached_motion_vector_ := fresh, cache_needs_updating_ := false })
  else
    (self.cached_motion_vector_, self)

/-- Modelled from the spec: `MotionStructure::GetTotalNumberOfDiscreteContacts()`,
the "sum, over all samples, of the number of active contacts per sample". -/
def MotionStructure.GetTotalNumberOfDiscreteContacts (self : MotionStructure) : Int :=
  ((self.GetContactInfoVec.1.map (fun m => m.contacts.length)).sum : Nat)

/-- Modelled from the spec: `MotionStructure::GetPhases()`, the "read-only accessor
to the phase list". -/
def MotionStructure.GetPhases (self : MotionStructure) : List PhaseInfo :=
  self.phases_

/-- A call a client makes on a `MotionStructure`. -/
inductive Call where
  | init (start_stance : List Foothold) (step_legs : List LegID) (t_swing t_stance : Scalar)
      (insert_initial_stance insert_final_stance : Bool)
  | setDisretization (dt : Scalar)
  | getContactInfoVec

/-- The object after one call. -/
def MotionStructure.call (self : MotionStructure) : Call → MotionStructure
  | .init start_stance step_legs t_swing t_stance i f =>
    self.Init start_stance step_legs t_swing t_stance i f
  | .setDisretization dt => self.SetDisretization dt
  | .getContactInfoVec => self.GetContactInfoVec.2

/-- The object after a sequence of calls, first to last. -/
def MotionStructure.calls (self : MotionStructure) (cs : List Call) : MotionStructure :=
  cs.foldl MotionStructure.call self

/-- The cache is valid: if it is not marked dirty, it holds the samples of the
current phases and `dt`. -/
def MotionStructure.CacheValid (self : MotionStructure) : Prop :=
  self.cache_needs_updating_ = false → self.cached_motion_vector_ = self.CalcContactInfoVec

instance (self : MotionStructure) : Decidable self.CacheValid :=
  inferInstanceAs (Decidable (self.cache_needs_updating_ = false →
    self.cached_motion_vector_ = self.CalcContactInfoVec))

/-- The legs of a list of contacts. -/
def legsOf (contacts : List Contact) : List LegID :=
  contacts.map (fun c => c.leg)

/-- A sample start stance: all four legs on the ground. -/
def sampleStance : List Foothold :=
  [{ leg := .LF, p := { x := 1, y := 1, z := 0 } },
   { leg := .RF, p := { x := 1, y := -1, z := 0 } },
   { leg := .LH, p := { x := -1, y := 1, z := 0 } },
   { leg := .RH, p := { x := -1, y := -1, z := 0 } }]

/-- A `MotionStructure` before `Init`: nothing in it, the cache not marked dirty. -/
def blankMotionStructure : MotionStructure :=
  { start_stance_ := []
    steps_ := []
    phases_ := []
    dt_ := 0
    cache_needs_updating_ := false
    cached_motion_vector_ := [{ time_ := 42, contacts := [] }] }

end zmp
end xpp

/-! # Theorems -/

namespace xpp
namespace zmp

/-! ## Helper lemmas on the cost functor -/

theorem storeVariables_holders_same (mem : Memory) (a : Addr) (v : OptimizationVariables) :
    (mem.storeVariables a v).holders a = v := by
  simp [Memory.storeVariables]

theorem storeVariables_holders_other (mem : Memory) (a b : Addr) (v : OptimizationVariables)
    (h : b ≠ a) : (mem.storeVariables a v).holders b = mem.holders b := by
  simp [Memory.storeVariables, h]

theorem storeVariables_containers (mem : Memory) (a : Addr) (v : OptimizationVariables) :
    (mem.storeVariables a v).containers = mem.containers := rfl

/-- A functor that is Bound to `(s, c)` evaluates as follows when `obj_value` has a
coefficient 0. -/
theorem operator_call_of_bound (g : CostFunctionFunctor) (s c : Addr)
    (hs : g.subject_ = some s) (hc : g.cost_container_ = some c) (hb : g.costs_added_ = true)
    (mem : Memory) (x obj_value : VectorXd) (hobj : 0 < obj_value.length) :
    g.operator_call mem x obj_value =
      { mem := mem.storeVariables s ((mem.holders s).SetVariables x)
        obj_value := obj_value.set 0 ((mem.containers c).EvaluateTotalCost { x_ := x })
        status := .ok 1 } := by
  simp [CostFunctionFunctor.operator_call, hs, hc, hb, hobj, storeVariables_holders_same,
    storeVariables_containers, OptimizationVariables.SetVariables]

/-- The memory after `operator()` has the containers of the memory before. -/
theorem operator_call_containers (g : CostFunctionFunctor) (mem : Memory)
    (x obj_value : VectorXd) :
    (g.operator_call mem x obj_value).mem.containers = mem.containers := by
  unfold CostFunctionFunctor.operator_call
  split
  · rfl
  · split
    · rfl
    · split
      · rfl
      · split <;> rfl

theorem step_evaluate_functor (s : System) (x obj_value : VectorXd) :
    (s.step (.evaluate x obj_value)).functor = s.functor := rfl

theorem run_nil (s : System) : s.run [] = s := rfl

theorem run_cons (s : System) (op : Op) (ops : List Op) :
    s.run (op :: ops) = (s.step op).run ops := rfl

/-- Evaluations alone leave the functor as it is. -/
theorem run_functor_of_no_binding (ops : List Op) :
    ∀ s : System, lastBinding ops = none → (s.run ops).functor = s.functor := by
  induction ops with
  | nil => intro s _; rfl
  | cons op rest ih =>
    intro s h
    cases op with
    | addCosts a c =>
      simp only [lastBinding] at h
      cases hr : lastBinding rest <;> simp [hr] at h
    | evaluate x o =>
      simp only [lastBinding] at h
      rw [run_cons, ih _ h, step_evaluate_functor]

/-- Evaluations alone leave the containers as they are. -/
theorem run_containers_of_no_binding (ops : List Op) :
    ∀ s : System, lastBinding ops = none → (s.run ops).mem.containers = s.mem.containers := by
  induction ops with
  | nil => intro s _; rfl
  | cons op rest ih =>
    intro s h
    cases op with
    | addCosts a c =>
      simp only [lastBinding] at h
      cases hr : lastBinding rest <;> simp [hr] at h
    | evaluate x o =>
      simp only [lastBinding] at h
      rw [run_cons, ih _ h]
      exact operator_call_containers _ _ _ _

/-- After a sequence that contains an `AddCosts`, the functor is Bound to the pair of
the last one. -/
theorem run_functor_of_binding (ops : List Op) :
    ∀ (s : System) (a c : Addr), lastBinding ops = some (a, c) →
      (s.run ops).functor.subject_ = some a ∧ (s.run ops).functor.cost_container_ = some c ∧
        (s.run ops).functor.costs_added_ = true := by
  induction ops with
  | nil => intro s a c h; simp [lastBinding] at h
  | cons op rest ih =>
    intro s a c h
    cases op with
    | addCosts a1 c1 =>
      simp only [lastBinding] at h
      cases hr : lastBinding rest with
      | none =>
        simp [hr] at h
        rw [run_cons, run_functor_of_no_binding rest _ hr]
        simp [System.step, CostFunctionFunctor.AddCosts, h.1, h.2]
      | some b =>
        simp [hr] at h
        rw [run_cons]
        exact ih _ a c (by rw [hr, h])
    | evaluate x o =>
      simp only [lastBinding] at h
      rw [run_cons]
      exact ih _ a c h

theorem lastBinding_evaluations (calls : List (VectorXd × VectorXd)) :
    lastBinding (evaluations calls) = none := by
  induction calls with
  | nil => rfl
  | cons p rest ih => simpa [evaluations, lastBinding] using ih

/-- An Unbound functor leaves the memory alone, whatever it is asked to evaluate. -/
theorem run_mem_of_unbound (ops : List Op) :
    ∀ s : System, lastBinding ops = none → s.functor.costs_added_ = false →
      (s.run ops).mem = s.mem := by
  induction ops with
  | nil => intro s _ _; rfl
  | cons op rest ih =>
    intro s h hu
    cases op with
    | addCosts a c =>
      simp only [lastBinding] at h
      cases hr : lastBinding rest <;> simp [hr] at h
    | evaluate x o =>
      simp only [lastBinding] at h
      rw [run_cons, ih _ h (by rw [step_evaluate_functor]; exact hu)]
      simp [System.step, CostFunctionFunctor.operator_call, hu]

/-! ## The claims on `CostFunctionFunctor` -/

/-- C1: a functor bound by `AddCosts(subject, costs)` and called as
`operator()(x, obj_value)` writes `x` into the bound holder (and into nothing
else), so that the holder's variables are `x` after the call; then, `obj_value`
having a coefficient 0, it sets `obj_value(0)` to `EvaluateTotalCost()` of the
bound container over the holder whose variables are exactly `x`, and returns 1. -/
theorem operator_call_writes_then_evaluates (f : CostFunctionFunctor) (mem0 mem : Memory)
    (subject costs : Addr) (x obj_value : VectorXd) :
    let r := (f.AddCosts mem0 subject costs).operator_call mem x obj_value
    r.mem = mem.storeVariables subject ((mem.holders subject).SetVariables x) ∧
      (r.mem.holders subject).x_ = x ∧
      (∀ b, b ≠ subject → r.mem.holders b = mem.holders b) ∧
      r.mem.containers = mem.containers ∧
      (0 < obj_value.length →
        r.obj_value[0]? =
            some ((mem.containers costs).EvaluateTotalCost (r.mem.holders subject)) ∧
          r.obj_value =
            obj_value.set 0 ((mem.containers costs).EvaluateTotalCost { x_ := x }) ∧
          r.status = .ok 1) := by
  intro r
  have hm : r.mem = mem.storeVariables subject ((mem.holders subject).SetVariables x) := by
    show ((f.AddCosts mem0 subject costs).operator_call mem x obj_value).mem = _
    unfold CostFunctionFunctor.operator_call
    simp only [CostFunctionFunctor.AddCosts]
    rw [if_neg (by decide)]
    by_cases hobj : 0 < obj_value.length
    · rw [if_pos hobj]
    · rw [if_neg hobj]
  have hx : (r.mem.holders subject).x_ = x := by
    rw [hm, storeVariables_holders_same]; rfl
  refine ⟨hm, hx, ?_, ?_, ?_⟩
  · intro b hb
    rw [hm]
    exact storeVariables_holders_other _ _ _ _ hb
  · rw [hm]; rfl
  · intro hobj
    have hr : r = _ := operator_call_of_bound (f.AddCosts mem0 subject costs) subject costs
      rfl rfl rfl mem x obj_value hobj
    refine ⟨?_, ?_, ?_⟩
    · have hh : r.mem.holders subject = { x_ := x } := by
        rw [hm, storeVariables_holders_same]; rfl
      rw [hh, hr]
      simp [hobj]
    · rw [hr]
    · rw [hr]

/-- C1 at a concrete input: holder 2 of the sample memory, `x = [1, 2]`; the two
cost terms give 3 + 5. -/
theorem operator_call_writes_then_evaluates_witness :
    (((CostFunctionFunctor.new (-1) (-1)).AddCosts sampleMemory 2 0).operator_call
        sampleMemory [1, 2] [0]).obj_value = [8] ∧
      (((CostFunctionFunctor.new (-1) (-1)).AddCosts sampleMemory 2 0).operator_call
        sampleMemory [1, 2] [0]).status = .ok 1 ∧
      ((((CostFunctionFunctor.new (-1) (-1)).AddCosts sampleMemory 2 0).operator_call
        sampleMemory [1, 2] [0]).mem.holders 2).x_ = [1, 2] := by
  have h := operator_call_writes_then_evaluates (CostFunctionFunctor.new (-1) (-1))
    sampleMemory sampleMemory 2 0 [1, 2] [0]
  have h2 := h.2.2.2.2 (by decide)
  refine ⟨?_, h2.2.2, h.2.1⟩
  rw [h2.2.1]
  simp [sampleMemory, CostContainer.EvaluateTotalCost]
  norm_num

/-- C2: on a functor that comes from the constructor and has not seen `AddCosts`,
`operator()(x, obj_value)` fails at `assert(costs_added_)`: no holder is written,
`obj_value` keeps its content and no status is returned; this stays so after any
number of such calls. -/
theorem operator_call_unbound_fails (base_inputs base_values : Int) (mem : Memory)
    (x obj_value : VectorXd) (earlier : List (VectorXd × VectorXd)) :
    let f := CostFunctionFunctor.new base_inputs base_values
    let s := System.run { functor := f, mem := mem } (evaluations earlier)
    let r := s.functor.operator_call s.mem x obj_value
    s.functor = f ∧ s.mem = mem ∧
      r.status = .error .assert_costs_added ∧ r.mem = mem ∧ r.obj_value = obj_value := by
  intro f s r
  have hf : s.functor = f := run_functor_of_no_binding _ _ (lastBinding_evaluations earlier)
  have hm : s.mem = mem := run_mem_of_unbound _ _ (lastBinding_evaluations earlier) rfl
  have hr : r = { mem := mem, obj_value := obj_value, status := .error .assert_costs_added } := by
    show s.functor.operator_call s.mem x obj_value = _
    rw [hf, hm]
    rfl
  rw [hr]
  exact ⟨hf, hm, rfl, rfl, rfl⟩

/-- C3: after `AddCosts(subject, costs)` the declared input dimension is the
variable count that `subject` had at the call, the declared output dimension is
1, the functor is Bound to the two objects, and evaluations (which may change the
holder's count) do not change the recorded dimensions. -/
theorem AddCosts_records_dimensions (f : CostFunctionFunctor) (mem : Memory)
    (subject costs : Addr) (later : List (VectorXd × VectorXd)) :
    let g := f.AddCosts mem subject costs
    g.m_inputs = (mem.holders subject).GetOptimizationVariableCount ∧
      g.m_values = 1 ∧ g.costs_added_ = true ∧
      g.subject_ = some subject ∧ g.cost_container_ = some costs ∧
      (System.run { functor := g, mem := mem } (evaluations later)).functor.m_inputs =
        (mem.holders subject).GetOptimizationVariableCount ∧
      (System.run { functor := g, mem := mem } (evaluations later)).functor.m_values = 1 := by
  intro g
  have h := run_functor_of_no_binding (evaluations later) { functor := g, mem := mem }
    (lastBinding_evaluations later)
  rw [h]
  exact ⟨rfl, rfl, rfl, rfl, rfl, rfl, rfl⟩

/-- C4, as stated, fails: a second `AddCosts` on a Bound functor replaces the
holder, the container and the input dimension of the first bind. -/
theorem second_AddCosts_rebinds :
    let s0 : System :=
      { functor := (CostFunctionFunctor.new (-1) (-1)).AddCosts sampleMemory 0 0
        mem := sampleMemory }
    let s1 := s0.run [Op.addCosts 1 1]
    s0.functor.costs_added_ = true ∧
      s0.functor.subject_ = some 0 ∧ s1.functor.subject_ = some 1 ∧
      s0.functor.cost_container_ = some 0 ∧ s1.functor.cost_container_ = some 1 ∧
      s0.functor.m_inputs = 0 ∧ s1.functor.m_inputs = 1 ∧
      s1.functor.subject_ ≠ s0.functor.subject_ ∧
      s1.functor.cost_container_ ≠ s0.functor.cost_container_ ∧
      s1.functor.m_inputs ≠ s0.functor.m_inputs := by
  decide

/-- C4, amended: evaluations never change the functor (holder, container and
dimensions stay those of the bind); a later `AddCosts(a, c)` does re-bind: after
any sequence of operations the functor is Bound to the pair of the last
`AddCosts` in it, and an `AddCosts(a, c)` records the count of `a` at that time. -/
theorem binding_is_that_of_last_AddCosts (s : System) (ops : List Op) :
    (lastBinding ops = none → (s.run ops).functor = s.functor) ∧
      (∀ a c, lastBinding ops = some (a, c) →
        (s.run ops).functor.subject_ = some a ∧ (s.run ops).functor.cost_container_ = some c ∧
          (s.run ops).functor.costs_added_ = true) ∧
      (∀ a c, ((s.run ops).step (.addCosts a c)).functor.m_inputs =
        ((s.run ops).mem.holders a).GetOptimizationVariableCount) :=
  ⟨run_functor_of_no_binding ops s, run_functor_of_binding ops s, fun _ _ => rfl⟩

/-- C4, amended, at a concrete input: evaluations around a second `AddCosts`. -/
theorem binding_is_that_of_last_AddCosts_witness :
    (System.run { functor := (CostFunctionFunctor.new (-1) (-1)).AddCosts sampleMemory 0 0
                  mem := sampleMemory }
        [Op.evaluate [] [0], Op.addCosts 1 1, Op.evaluate [3] [0]]).functor.subject_ = some 1 ∧
      (System.run { functor := (CostFunctionFunctor.new (-1) (-1)).AddCosts sampleMemory 0 0
                    mem := sampleMemory }
        [Op.evaluate [] [0], Op.evaluate [5] [0]]).functor =
        (CostFunctionFunctor.new (-1) (-1)).AddCosts sampleMemory 0 0 :=
  ⟨((binding_is_that_of_last_AddCosts
      { functor := (CostFunctionFunctor.new (-1) (-1)).AddCosts sampleMemory 0 0
        mem := sampleMemory }
      [Op.evaluate [] [0], Op.addCosts 1 1, Op.evaluate [3] [0]]).2.1 1 1 rfl).1,
    (binding_is_that_of_last_AddCosts
      { functor := (CostFunctionFunctor.new (-1) (-1)).AddCosts sampleMemory 0 0
        mem := sampleMemory }
      [Op.evaluate [] [0], Op.evaluate [5] [0]]).1 rfl⟩

/-- C5: for a Bound functor, two evaluations at the same `x`, with any
evaluations at other inputs in between, give the same `obj_value(0)` and the
same status; the result is the total cost at `x` and is the same from every
memory that holds the same cost container, whatever the holder contained. -/
theorem operator_call_deterministic (f : CostFunctionFunctor) (mem0 mem : Memory)
    (subject costs : Addr) (x o1 o2 : VectorXd) (between : List (VectorXd × VectorXd))
    (h1 : 0 < o1.length) (h2 : 0 < o2.length) :
    let g := f.AddCosts mem0 subject costs
    let r1 := g.operator_call mem x o1
    let s := System.run { functor := g, mem := r1.mem } (evaluations between)
    let r2 := s.functor.operator_call s.mem x o2
    r1.obj_value[0]? = r2.obj_value[0]? ∧ r1.status = r2.status ∧
      r1.obj_value[0]? = some ((mem.containers costs).EvaluateTotalCost { x_ := x }) ∧
      (∀ (mem1 : Memory) (o : VectorXd), mem1.containers costs = mem.containers costs →
        0 < o.length →
          (g.operator_call mem1 x o).obj_value[0]? = r1.obj_value[0]? ∧
            (g.operator_call mem1 x o).status = r1.status) := by
  intro g r1 s r2
  have key : ∀ (m : Memory) (o : VectorXd), 0 < o.length →
      g.operator_call m x o =
        { mem := m.storeVariables subject ((m.holders subject).SetVariables x)
          obj_value := o.set 0 ((m.containers costs).EvaluateTotalCost { x_ := x })
          status := .ok 1 } :=
    fun m o ho => operator_call_of_bound g subject costs rfl rfl rfl m x o ho
  have hf : s.functor = g := run_functor_of_no_binding _ _ (lastBinding_evaluations between)
  have hc : s.mem.containers = mem.containers := by
    have h := run_containers_of_no_binding (evaluations between)
      { functor := g, mem := r1.mem } (lastBinding_evaluations between)
    rw [show s.mem.containers = r1.mem.containers from h]
    exact operator_call_containers _ _ _ _
  have hr1 : r1 = _ := key mem o1 h1
  have hr2 : r2 = g.operator_call s.mem x o2 := by
    show s.functor.operator_call s.mem x o2 = _
    rw [hf]
  rw [key s.mem o2 h2] at hr2
  refine ⟨?_, ?_, ?_, ?_⟩
  · rw [hr1, hr2, hc]; simp [h1, h2]
  · rw [hr1, hr2]
  · rw [hr1]; simp [h1]
  · intro mem1 o hm ho
    rw [key mem1 o ho, hr1, hm]
    simp [h1, ho]

/-- C5 at a concrete input: the same `x = [1, 2]` before and after an evaluation
at `[7, 7, 7]`. -/
theorem operator_call_deterministic_witness :
    0 < ([0] : VectorXd).length ∧ 0 < ([4, 4] : VectorXd).length ∧
      (let g := (CostFunctionFunctor.new (-1) (-1)).AddCosts sampleMemory 2 0
       let r1 := g.operator_call sampleMemory [1, 2] [0]
       let s := System.run { functor := g, mem := r1.mem } (evaluations [([7, 7, 7], [0])])
       let r2 := s.functor.operator_call s.mem [1, 2] [4, 4]
       r1.obj_value[0]? = r2.obj_value[0]? ∧ r1.status = r2.status ∧
        r1.obj_value[0]? =
          some ((sampleMemory.containers 0).EvaluateTotalCost { x_ := [1, 2] }) ∧
        (∀ (mem1 : Memory) (o : VectorXd),
          mem1.containers 0 = sampleMemory.containers 0 → 0 < o.length →
            (g.operator_call mem1 [1, 2] o).obj_value[0]? = r1.obj_value[0]? ∧
              (g.operator_call mem1 [1, 2] o).status = r1.status)) :=
  ⟨by decide, by decide, operator_call_deterministic (CostFunctionFunctor.new (-1) (-1))
    sampleMemory sampleMemory 2 0 [1, 2] [0] [4, 4] [([7, 7, 7], [0])] (by decide) (by decide)⟩

end zmp
end xpp

namespace xpp
namespace opt

/-! ## Helper lemmas on the terrain constraint -/

theorem set_getD_self (c : VectorXd) (j : Nat) : c.set j (c.getD j 0) = c := by
  induction c generalizing j with
  | nil => rfl
  | cons a rest ih =>
    cases j with
    | zero => rfl
    | succ j => simp only [List.set_cons_succ, List.getD_cons_succ, ih]

/-- The loop of `FillJacobianWithRespectTo`: rows named in `ks` get their new
coefficients, every other row is kept. -/
theorem foldl_setRow_apply (row : Nat → Nat → Scalar) (ks : List Nat) :
    ∀ (jac : Jacobian) (r j : Nat),
      (ks.foldl (fun acc k => setRow acc k (row k)) jac) r j =
        if r ∈ ks then row r j else jac r j := by
  induction ks with
  | nil => intro jac r j; simp
  | cons k rest ih =>
    intro jac r j
    rw [List.foldl_cons, ih]
    by_cases hr : r ∈ rest
    · simp [hr]
    · by_cases hk : r = k
      · subst hk; simp [hr, setRow]
      · simp [hr, hk, setRow]

theorem GetValues_length (T : TerrainConstraint) :
    T.GetValues.length = T.ee_motion_.n_nodes_ := by
  simp [TerrainConstraint.GetValues]

theorem GetValues_getD (T : TerrainConstraint) (k : Nat) (hk : k < T.ee_motion_.n_nodes_) :
    T.GetValues.getD k 0 =
      (T.ee_motion_.position k).z -
        T.terrain_.GetHeight (T.ee_motion_.position k).x (T.ee_motion_.position k).y := by
  simp [TerrainConstraint.GetValues, List.getD_eq_getElem?_getD, List.getElem?_map,
    List.getElem?_range hk]

/-- The chain rule for one constraint value along one coefficient. -/
theorem hasDerivAt_clearance (x y z : Scalar → Scalar) (h : Scalar × Scalar → Scalar)
    (x1 y1 z1 gx gy t0 : Scalar)
    (hx : HasDerivAt x x1 t0) (hy : HasDerivAt y y1 t0) (hz : HasDerivAt z z1 t0)
    (hh : HasFDerivAt h
      (gx • ContinuousLinearMap.fst Scalar Scalar Scalar +
        gy • ContinuousLinearMap.snd Scalar Scalar Scalar) (x t0, y t0)) :
    HasDerivAt (fun t => z t - h (x t, y t)) (z1 - (gx * x1 + gy * y1)) t0 := by
  have hc := hh.comp_hasDerivAt t0 (hx.prod hy)
  have hs := hz.sub hc
  convert hs using 1

/-! ## The claims on `TerrainConstraint` -/

/-- C6: `GetValues()` has one entry per spline node, in node order, and entry `k`
is v_k = z_k − terrain_height(x_k, y_k) for the position (x_k, y_k, z_k) of node
`k`; it is 0 exactly when the foot is at terrain elevation, negative exactly
when it is below, and positive exactly when it is above. -/
theorem GetValues_is_clearance (T : TerrainConstraint) (k : Nat)
    (hk : k < T.ee_motion_.n_nodes_) :
    let p := T.ee_motion_.position k
    let h := T.terrain_.GetHeight p.x p.y
    T.GetValues.length = T.ee_motion_.n_nodes_ ∧
      T.GetValues[k]? = some (p.z - h) ∧
      (T.GetValues.getD k 0 = 0 ↔ p.z = h) ∧
      (T.GetValues.getD k 0 < 0 ↔ p.z < h) ∧
      (0 < T.GetValues.getD k 0 ↔ h < p.z) := by
  intro p h
  have hv : T.GetValues.getD k 0 = p.z - h := GetValues_getD T k hk
  refine ⟨GetValues_length T, ?_, ?_, ?_, ?_⟩
  · simp [TerrainConstraint.GetValues, List.getElem?_map, List.getElem?_range hk, p, h]
  · rw [hv]; exact sub_eq_zero
  · rw [hv]; exact sub_neg
  · rw [hv]; exact sub_pos

/-- C6 at a concrete input: node 1 of the sample spline, one unit above the plane. -/
theorem GetValues_is_clearance_witness :
    1 < (sampleConstraint [0, 0, 1, 1, 1, 7]).ee_motion_.n_nodes_ ∧
      (let T := sampleConstraint [0, 0, 1, 1, 1, 7]
       let p := T.ee_motion_.position 1
       let h := T.terrain_.GetHeight p.x p.y
       T.GetValues.length = T.ee_motion_.n_nodes_ ∧
        T.GetValues[1]? = some (p.z - h) ∧
        (T.GetValues.getD 1 0 = 0 ↔ p.z = h) ∧
        (T.GetValues.getD 1 0 < 0 ↔ p.z < h) ∧
        (0 < T.GetValues.getD 1 0 ↔ h < p.z)) :=
  ⟨by decide, GetValues_is_clearance (sampleConstraint [0, 0, 1, 1, 1, 7]) 1 (by decide)⟩

/-- C7: when `var_set` names the bound spline, `FillJacobianWithRespectTo` writes
into row `k`, for every node `k`, the coefficients
∂z_k/∂c − (∂h/∂x · ∂x_k/∂c + ∂h/∂y · ∂y_k/∂c), and keeps the rows that belong to
no node; this coefficient is the derivative of `GetValues()[k]` in the
coefficient `j` as soon as the spline's position Jacobian and the terrain's
gradient are the derivatives of the position and of the height; when `var_set`
names another variable set, the Jacobian is left as it was. -/
theorem FillJacobian_is_chain_rule (T : TerrainConstraint) (var_set : String) (jac : Jacobian) :
    (var_set = T.ee_motion_.name_ →
      (∀ k j, k < T.ee_motion_.n_nodes_ →
        T.FillJacobianWithRespectTo var_set jac k j =
          (T.ee_motion_.positionJacobian k j).z -
            ((T.terrain_.GetGradient (T.ee_motion_.position k).x (T.ee_motion_.position k).y).1 *
                (T.ee_motion_.positionJacobian k j).x +
              (T.terrain_.GetGradient (T.ee_motion_.position k).x (T.ee_motion_.position k).y).2 *
                (T.ee_motion_.positionJacobian k j).y)) ∧
      (∀ r j, T.ee_motion_.n_nodes_ ≤ r → T.FillJacobianWithRespectTo var_set jac r j = jac r j) ∧
      (∀ k j, k < T.ee_motion_.n_nodes_ →
        HasDerivAt (fun t => (T.ee_motion_.position_ (T.ee_motion_.coefficients_.set j t) k).x)
          (T.ee_motion_.positionJacobian k j).x (T.ee_motion_.coefficients_.getD j 0) →
        HasDerivAt (fun t => (T.ee_motion_.position_ (T.ee_motion_.coefficients_.set j t) k).y)
          (T.ee_motion_.positionJacobian k j).y (T.ee_motion_.coefficients_.getD j 0) →
        HasDerivAt (fun t => (T.ee_motion_.position_ (T.ee_motion_.coefficients_.set j t) k).z)
          (T.ee_motion_.positionJacobian k j).z (T.ee_motion_.coefficients_.getD j 0) →
        HasFDerivAt (fun q : Scalar × Scalar => T.terrain_.GetHeight q.1 q.2)
          ((T.terrain_.GetGradient (T.ee_motion_.position k).x (T.ee_motion_.position k).y).1 •
              ContinuousLinearMap.fst Scalar Scalar Scalar +
            (T.terrain_.GetGradient (T.ee_motion_.position k).x (T.ee_motion_.position k).y).2 •
              ContinuousLinearMap.snd Scalar Scalar Scalar)
          ((T.ee_motion_.position k).x, (T.ee_motion_.position k).y) →
        HasDerivAt
          (fun t => (T.withCoefficients (T.ee_motion_.coefficients_.set j t)).GetValues.getD k 0)
          (T.FillJacobianWithRespectTo var_set jac k j) (T.ee_motion_.coefficients_.getD j 0))) ∧
      (var_set ≠ T.ee_motion_.name_ → T.FillJacobianWithRespectTo var_set jac = jac) := by
  have entry : var_set = T.ee_motion_.name_ → ∀ r j,
      T.FillJacobianWithRespectTo var_set jac r j =
        if r < T.ee_motion_.n_nodes_ then T.jacobianRow r j else jac r j := by
    intro hv r j
    unfold TerrainConstraint.FillJacobianWithRespectTo
    rw [if_pos hv, foldl_setRow_apply]
    simp only [List.mem_range]
  refine ⟨fun hv => ⟨?_, ?_, ?_⟩, ?_⟩
  · intro k j hk
    rw [entry hv, if_pos hk]
    rfl
  · intro r j hr
    rw [entry hv, if_neg (Nat.not_lt.mpr hr)]
  · intro k j hk hx hy hz hh
    rw [entry hv, if_pos hk]
    have hself : T.ee_motion_.position_
        (T.ee_motion_.coefficients_.set j (T.ee_motion_.coefficients_.getD j 0)) k =
        T.ee_motion_.position k := by
      rw [set_getD_self]; rfl
    have hfun : (fun t =>
        (T.withCoefficients (T.ee_motion_.coefficients_.set j t)).GetValues.getD k 0) =
        fun t => (T.ee_motion_.position_ (T.ee_motion_.coefficients_.set j t) k).z -
          (fun q : Scalar × Scalar => T.terrain_.GetHeight q.1 q.2)
            ((T.ee_motion_.position_ (T.ee_motion_.coefficients_.set j t) k).x,
              (T.ee_motion_.position_ (T.ee_motion_.coefficients_.set j t) k).y) := by
      funext t
      exact GetValues_getD (T.withCoefficients (T.ee_motion_.coefficients_.set j t)) k hk
    rw [hfun]
    have hh1 : HasFDerivAt (fun q : Scalar × Scalar => T.terrain_.GetHeight q.1 q.2)
        ((T.terrain_.GetGradient (T.ee_motion_.position k).x (T.ee_motion_.position k).y).1 •
            ContinuousLinearMap.fst Scalar Scalar Scalar +
          (T.terrain_.GetGradient (T.ee_motion_.position k).x (T.ee_motion_.position k).y).2 •
            ContinuousLinearMap.snd Scalar Scalar Scalar)
        ((T.ee_motion_.position_
            (T.ee_motion_.coefficients_.set j (T.ee_motion_.coefficients_.getD j 0)) k).x,
          (T.ee_motion_.position_
            (T.ee_motion_.coefficients_.set j (T.ee_motion_.coefficients_.getD j 0)) k).y) := by
      rw [hself]
      exact hh
    exact hasDerivAt_clearance _ _ _ (fun q : Scalar × Scalar => T.terrain_.GetHeight q.1 q.2)
      _ _ _ _ _ _ hx hy hz hh1
  · intro hv
    unfold TerrainConstraint.FillJacobianWithRespectTo
    rw [if_neg hv]

/-- C7 at a concrete input: node 1 of the sample spline over the plane
h = 2x + 3y + 1, differentiated in the coefficient 3 (the x of node 1). -/
theorem FillJacobian_is_chain_rule_witness :
    (sampleConstraint [1, 2, 3, 4, 5, 6]).FillJacobianWithRespectTo "ee_motion_0"
        (fun _ _ => 0) 1 3 = -2 ∧
      HasDerivAt
        (fun t => ((sampleConstraint [1, 2, 3, 4, 5, 6]).withCoefficients
          (([1, 2, 3, 4, 5, 6] : VectorXd).set 3 t)).GetValues.getD 1 0)
        ((sampleConstraint [1, 2, 3, 4, 5, 6]).FillJacobianWithRespectTo "ee_motion_0"
          (fun _ _ => 0) 1 3) 4 ∧
      (sampleConstraint [1, 2, 3, 4, 5, 6]).FillJacobianWithRespectTo "body_motion"
        (fun _ _ => 7) = fun _ _ => 7 := by
  have h := FillJacobian_is_chain_rule (sampleConstraint [1, 2, 3, 4, 5, 6])
  refine ⟨?_, ?_, (h "body_motion" (fun _ _ => 7)).2 (by decide)⟩
  · rw [((h "ee_motion_0" (fun _ _ => 0)).1 rfl).1 1 3 (by decide)]
    simp [sampleConstraint, sampleSpline, sampleTerrain, EEMotionNodes.positionJacobian,
      EEMotionNodes.position]
  · refine ((h "ee_motion_0" (fun _ _ => 0)).1 rfl).2.2 1 3 (by decide) ?_ ?_ ?_ ?_
    · exact hasDerivAt_id (4 : Scalar)
    · exact hasDerivAt_const (4 : Scalar) (5 : Scalar)
    · exact hasDerivAt_const (4 : Scalar) (6 : Scalar)
    · have h1 : HasFDerivAt (fun q : Scalar × Scalar => q.1)
          (ContinuousLinearMap.fst Scalar Scalar Scalar) (4, 5) := hasFDerivAt_fst
      have h2 : HasFDerivAt (fun q : Scalar × Scalar => q.2)
          (ContinuousLinearMap.snd Scalar Scalar Scalar) (4, 5) := hasFDerivAt_snd
      exact ((h1.const_mul 2).add (h2.const_mul 3)).add_const 1

/-- C8: `GetBounds()` has one bound per spline node, as many as `GetValues()` has
entries and in the same order, and each of them is the interval from 0 to
`max_z_distance_above_terrain_`; this upper limit is 1e20 (ten to the power 20)
for a constraint built with the member's initialiser. -/
theorem GetBounds_is_clearance_band (T : TerrainConstraint) (e : EEMotionNodes)
    (t : HeightMap) :
    T.GetBounds.length = T.ee_motion_.n_nodes_ ∧
      T.GetBounds.length = T.GetValues.length ∧
      (∀ k, k < T.ee_motion_.n_nodes_ →
        T.GetBounds[k]? = some { lower_ := 0, upper_ := T.max_z_distance_above_terrain_ }) ∧
      (∀ b ∈ T.GetBounds, b.lower_ = 0 ∧ b.upper_ = T.max_z_distance_above_terrain_) ∧
      ({ ee_motion_ := e, terrain_ := t } : TerrainConstraint).max_z_distance_above_terrain_
        = 1e20 ∧
      ({ ee_motion_ := e, terrain_ := t } : TerrainConstraint).max_z_distance_above_terrain_
        = 10 ^ 20 ∧
      (∀ b ∈ ({ ee_motion_ := e, terrain_ := t } : TerrainConstraint).GetBounds,
        b = { lower_ := 0, upper_ := 10 ^ 20 }) := by
  refine ⟨?_, ?_, ?_, ?_, rfl, ?_, ?_⟩
  · simp [TerrainConstraint.GetBounds]
  · simp [TerrainConstraint.GetBounds, TerrainConstraint.GetValues]
  · intro k hk
    simp [TerrainConstraint.GetBounds, List.getElem?_map, List.getElem?_range hk, hk]
  · intro b hb
    simp only [TerrainConstraint.GetBounds, List.mem_map, List.mem_range] at hb
    obtain ⟨_, _, rfl⟩ := hb
    exact ⟨rfl, rfl⟩
  · norm_num
  · intro b hb
    simp only [TerrainConstraint.GetBounds, List.mem_map, List.mem_range] at hb
    obtain ⟨_, _, rfl⟩ := hb
    norm_num

/-- C8 at a concrete input: the bounds of the sample constraint. -/
theorem GetBounds_is_clearance_band_witness :
    (sampleConstraint [1, 2, 3, 4, 5, 6]).GetBounds[1]? =
      some { lower_ := 0, upper_ := (sampleConstraint [1, 2, 3, 4, 5, 6]).max_z_distance_above_terrain_ } :=
  (GetBounds_is_clearance_band (sampleConstraint [1, 2, 3, 4, 5, 6])
    (sampleSpline []) sampleTerrain).2.2.1 1 (by decide)

end opt
end xpp

namespace xpp
namespace zmp

open hyq

/-! ## Helper lemmas on the motion structure -/

theorem legsOf_startContacts (start_stance : List Foothold) :
    legsOf (startContacts start_stance) = start_stance.map (fun f => f.leg) := by
  simp [legsOf, startContacts, List.map_map, Function.comp_def]

theorem legsOf_touchdown (current : List Contact) (i : Nat) (leg : LegID) :
    legsOf (touchdown current i leg) = legsOf current := by
  induction current with
  | nil => rfl
  | cons c rest ih =>
    simp only [legsOf, touchdown, List.map_cons, List.cons.injEq] at ih ⊢
    refine ⟨?_, ih⟩
    by_cases h : c.leg = leg
    · simp [h]
    · simp [h]

theorem legsOf_filter (current : List Contact) (leg : LegID) :
    legsOf (current.filter (fun c => c.leg ≠ leg)) =
      (legsOf current).filter (fun l => l ≠ leg) := by
  simp [legsOf, List.filter_map, Function.comp_def]

theorem filter_ne_length_lt (legs : List LegID) (leg : LegID) (h : leg ∈ legs) :
    (legs.filter (fun l => l ≠ leg)).length < legs.length := by
  rw [List.length_filter_lt_length_iff_exists]
  exact ⟨leg, h, by simp⟩

/-- The phases that `Init` builds for one step, with both stance phases inserted. -/
theorem Init_single_step (s0 : MotionStructure) (start_stance : List Foothold) (leg : LegID)
    (t_swing t_stance : Scalar) :
    (s0.Init start_stance [leg] t_swing t_stance true true).GetPhases =
      [{ id_ := 0, duration_ := t_stance, contacts_ := startContacts start_stance },
       { id_ := 1, duration_ := t_swing,
         contacts_ := (startContacts start_stance).filter (fun c => c.leg ≠ leg) },
       { id_ := 2, duration_ := t_stance,
         contacts_ := touchdown (startContacts start_stance) 0 leg }] := by
  simp [MotionStructure.Init, MotionStructure.GetPhases, MotionStructure.BuildPhases,
    swingPhases, contactsAfterSteps, numberPhases]

theorem cacheValid_Init (s : MotionStructure) (start_stance : List Foothold)
    (step_legs : List LegID) (t_swing t_stance : Scalar) (i f : Bool) :
    (s.Init start_stance step_legs t_swing t_stance i f).CacheValid := by
  intro h
  simp [MotionStructure.Init] at h

theorem cacheValid_SetDisretization (s : MotionStructure) (dt : Scalar) :
    (s.SetDisretization dt).CacheValid := by
  intro h
  simp [MotionStructure.SetDisretization] at h

theorem cacheValid_GetContactInfoVec (s : MotionStructure) (h : s.CacheValid) :
    s.GetContactInfoVec.2.CacheValid := by
  unfold MotionStructure.GetContactInfoVec
  split
  · intro _; rfl
  · exact h

theorem cacheValid_call (s : MotionStructure) (c : Call) (h : s.CacheValid) :
    (s.call c).CacheValid := by
  cases c with
  | init ss legs tsw tst i f => exact cacheValid_Init s ss legs tsw tst i f
  | setDisretization dt => exact cacheValid_SetDisretization s dt
  | getContactInfoVec => exact cacheValid_GetContactInfoVec s h

theorem cacheValid_calls (cs : List Call) :
    ∀ s : MotionStructure, s.CacheValid → (s.calls cs).CacheValid := by
  induction cs with
  | nil => intro s h; exact h
  | cons c rest ih => intro s h; exact ih _ (cacheValid_call s c h)

/-- With a valid cache, `GetContactInfoVec` returns the fresh samples. -/
theorem GetContactInfoVec_of_cacheValid (s : MotionStructure) (h : s.CacheValid) :
    s.GetContactInfoVec.1 = s.CalcContactInfoVec := by
  unfold MotionStructure.GetContactInfoVec
  split
  · rfl
  · exact h (by simpa using ‹¬ s.cache_needs_updating_ = true›)

/-- `GetContactInfoVec` changes the two cache members only. -/
theorem GetContactInfoVec_keeps (s : MotionStructure) :
    s.GetContactInfoVec.2.phases_ = s.phases_ ∧ s.GetContactInfoVec.2.dt_ = s.dt_ ∧
      s.GetContactInfoVec.2.start_stance_ = s.start_stance_ ∧
      s.GetContactInfoVec.2.steps_ = s.steps_ := by
  unfold MotionStructure.GetContactInfoVec
  split <;> exact ⟨rfl, rfl, rfl, rfl⟩

/-! ## The claims on `MotionStructure` -/

/-- C9: after `Init(start_stance, [leg], t_swing, t_stance, true, true)` with a leg
of the start stance and positive times, `GetPhases()` returns exactly three
phases, in order: a stance of duration `t_stance` with all legs in contact, a
swing of duration `t_swing` with `leg` not in contact and every other leg in
contact, a stance of duration `t_stance` with all legs in contact; the durations
are positive and sum to `t_swing + 2 * t_stance`, which is 0.9 for 0.5 and 0.2. -/
theorem Init_one_step_gives_three_phases (s0 : MotionStructure)
    (start_stance : List Foothold) (leg : LegID) (t_swing t_stance : Scalar)
    (hleg : leg ∈ start_stance.map (fun f => f.leg))
    (hswing : 0 < t_swing) (hstance : 0 < t_stance) :
    let phases := (s0.Init start_stance [leg] t_swing t_stance true true).GetPhases
    let legs := start_stance.map (fun f => f.leg)
    phases.length = 3 ∧
      phases.map (fun p => (p.duration_, legsOf p.contacts_)) =
        [(t_stance, legs), (t_swing, legs.filter (fun l => l ≠ leg)), (t_stance, legs)] ∧
      leg ∉ legs.filter (fun l => l ≠ leg) ∧
      (∀ l ∈ legs, l ≠ leg → l ∈ legs.filter (fun l => l ≠ leg)) ∧
      (legs.filter (fun l => l ≠ leg)).length < legs.length ∧
      (∀ p ∈ phases, 0 < p.duration_) ∧
      (phases.map (fun p => p.duration_)).sum = t_swing + 2 * t_stance ∧
      (t_swing = 0.5 → t_stance = 0.2 → (phases.map (fun p => p.duration_)).sum = 0.9) := by
  intro phases legs
  have hp : phases = _ := Init_single_step s0 start_stance leg t_swing t_stance
  have hsum : (phases.map (fun p => p.duration_)).sum = t_swing + 2 * t_stance := by
    rw [hp]
    simp only [List.map_cons, List.map_nil, List.sum_cons, List.sum_nil]
    ring
  refine ⟨?_, ?_, ?_, ?_, filter_ne_length_lt legs leg hleg, ?_, hsum, ?_⟩
  · rw [hp]; rfl
  · rw [hp]
    simp only [List.map_cons, List.map_nil, legsOf_filter, legsOf_touchdown,
      legsOf_startContacts, legs]
  · simp
  · intro l hl hne
    simp [hl, hne]
  · intro p hmem
    rw [hp] at hmem
    simp only [List.mem_cons, List.mem_singleton, List.not_mem_nil, or_false] at hmem
    rcases hmem with h | h | h <;> rw [h] <;> assumption
  · intro h1 h2
    rw [hsum, h1, h2]
    norm_num

/-- C9 at the input of the spec: the right front leg steps, `t_swing = 0.5`,
`t_stance = 0.2`. -/
theorem Init_one_step_gives_three_phases_witness :
    LegID.RF ∈ sampleStance.map (fun f => f.leg) ∧ (0 : Scalar) < 0.5 ∧ (0 : Scalar) < 0.2 ∧
      (let phases :=
          (blankMotionStructure.Init sampleStance [LegID.RF] 0.5 0.2 true true).GetPhases
       let legs := sampleStance.map (fun f => f.leg)
       phases.length = 3 ∧
        phases.map (fun p => (p.duration_, legsOf p.contacts_)) =
          [(0.2, legs), (0.5, legs.filter (fun l => l ≠ LegID.RF)), (0.2, legs)] ∧
        LegID.RF ∉ legs.filter (fun l => l ≠ LegID.RF) ∧
        (∀ l ∈ legs, l ≠ LegID.RF → l ∈ legs.filter (fun l => l ≠ LegID.RF)) ∧
        (legs.filter (fun l => l ≠ LegID.RF)).length < legs.length ∧
        (∀ p ∈ phases, 0 < p.duration_) ∧
        (phases.map (fun p => p.duration_)).sum = 0.5 + 2 * 0.2 ∧
        ((0.5 : Scalar) = 0.5 → (0.2 : Scalar) = 0.2 →
          (phases.map (fun p => p.duration_)).sum = 0.9)) :=
  ⟨by decide, by norm_num, by norm_num,
    Init_one_step_gives_three_phases blankMotionStructure sampleStance LegID.RF 0.5 0.2
      (by decide) (by norm_num) (by norm_num)⟩

/-- C10: in every state reached from an `Init` by any sequence of `Init`,
`SetDisretization` and `GetContactInfoVec` calls, `GetContactInfoVec()` returns
what a fresh `CalcContactInfoVec()` over the current phases and `dt` returns; a
second call right after returns the same, and a call after
`SetDisretization(dt1)` returns the samples of the current phases for `dt1`. -/
theorem GetContactInfoVec_cache_is_transparent (s0 : MotionStructure)
    (start_stance : List Foothold) (step_legs : List LegID) (t_swing t_stance : Scalar)
    (insert_initial_stance insert_final_stance : Bool) (cs : List Call) (dt1 : Scalar) :
    let s := (s0.Init start_stance step_legs t_swing t_stance insert_initial_stance
      insert_final_stance).calls cs
    s.GetContactInfoVec.1 = s.CalcContactInfoVec ∧
      s.GetContactInfoVec.2.GetContactInfoVec.1 = s.GetContactInfoVec.1 ∧
      s.GetContactInfoVec.2.CalcContactInfoVec = s.CalcContactInfoVec ∧
      (s.SetDisretization dt1).GetContactInfoVec.1 = samplesFrom dt1 0 s.phases_ ∧
      (s.GetContactInfoVec.2.SetDisretization dt1).GetContactInfoVec.1 =
        samplesFrom dt1 0 s.phases_ := by
  intro s
  have hs : s.CacheValid := cacheValid_calls cs _ (cacheValid_Init s0 _ _ _ _ _ _)
  have hk := GetContactInfoVec_keeps s
  have hcalc : s.GetContactInfoVec.2.CalcContactInfoVec = s.CalcContactInfoVec := by
    simp only [MotionStructure.CalcContactInfoVec, hk.1, hk.2.1]
  refine ⟨GetContactInfoVec_of_cacheValid s hs, ?_, hcalc, ?_, ?_⟩
  · rw [GetContactInfoVec_of_cacheValid _ (cacheValid_GetContactInfoVec s hs), hcalc,
      GetContactInfoVec_of_cacheValid s hs]
  · rw [GetContactInfoVec_of_cacheValid _ (cacheValid_SetDisretization s dt1)]
    rfl
  · rw [GetContactInfoVec_of_cacheValid _ (cacheValid_SetDisretization _ dt1)]
    simp only [MotionStructure.CalcContactInfoVec, MotionStructure.SetDisretization, hk.1]

end zmp
end xpp

